import Mathlib

/-!
# Verification of the pdf2png tool (`src/pdf2png/tool.py`)

A shallow embedding of the pdf2png conversion tool.  Paths are plain
strings manipulated with POSIX semantics (the tool runs with `os.sep = "/"`):
`os.path.normpath`, `os.path.join` and `os.path.basename` are embedded
faithfully from CPython's `posixpath` module.  The external collaborators
(the gptscript workspace store, the fitz rasterizer, the PIL PNG encoder)
are abstracted as function parameters of the run; the tool's own logic —
path prefixing, `.pdf` suffix handling, the page loop, the orchestration
order — is embedded from the source.  Python exceptions are modelled with
`Option`/`Except`.
-/

set_option autoImplicit false

namespace Pdf2Png

/-- Python `str.split(sep)` for a single-character separator, on the
character list of the string.  Always returns a non-empty list
(`"".split("/") == [""]` in Python). -/
def splitSep (sep : Char) : List Char → List (List Char)
  | [] => [[]]
  | c :: cs =>
    let rest := splitSep sep cs
    if c = sep then [] :: rest
    else
      match rest with
      | [] => [[c]]
      | r :: rs => (c :: r) :: rs

/-- Python `sep.join(parts)` for a single-character separator. -/
def joinSep (sep : Char) : List (List Char) → List Char
  | [] => []
  | [p] => p
  | p :: ps => p ++ sep :: joinSep sep ps

/-- The number of initial slashes `posixpath.normpath` preserves:
`0` for a relative path, `2` for exactly two leading slashes, `1`
otherwise. -/
def initialSlashes (l : List Char) : Nat :=
  if l.take 1 = ['/'] then
    if l.take 2 = ['/', '/'] ∧ ¬ l.take 3 = ['/', '/', '/'] then 2 else 1
  else 0

/-- The component-collapsing loop of `posixpath.normpath`: drop empty and
`.` components, resolve `..` against a previous real component. -/
def normComps (slashes : Nat) (comps : List (List Char)) : List (List Char) :=
  comps.foldl
    (fun newComps comp =>
      if comp = [] ∨ comp = ['.'] then newComps
      else if comp ≠ ['.', '.'] ∨ (slashes = 0 ∧ newComps = [])
              ∨ (newComps ≠ [] ∧ newComps.getLast? = some ['.', '.']) then
        newComps ++ [comp]
      else if newComps ≠ [] then newComps.dropLast
      else newComps)
    []

/-- Embeds CPython's `posixpath.normpath`: collapse redundant separators
and `.` / `..` segments. -/
def normpath (path : String) : String :=
  if path = "" then "."
  else
    let l := path.toList
    let slashes := initialSlashes l
    let comps := normComps slashes (splitSep '/' l)
    let joined := List.replicate slashes '/' ++ joinSep '/' comps
    if joined = [] then "." else String.mk joined

/-- Embeds CPython's `posixpath.join` for exactly two arguments:
an absolute second argument discards the first; otherwise insert a `/`
unless the first is empty or already ends in `/`. -/
def posixJoin (a b : String) : String :=
  if b.toList.take 1 = ['/'] then b
  else if a = "" ∨ a.toList.getLast? = some '/' then a ++ b
  else a ++ "/" ++ b

/-- Embeds CPython's `posixpath.basename`: everything after the last
slash, i.e. the last element of the split on `/`. -/
def basename (s : String) : String :=
  String.mk ((splitSep '/' s.toList).getLastD [])

/-- Embeds `prepend_base_path` from `tool.py`.  The first-segment access
`file_parts[0]` is modelled with `List.head?`, so an out-of-bounds access
would surface as `none`. -/
def prepend_base_path (base_path file_path : String) : Option String :=
  let file_parts := splitSep '/' (normpath file_path).toList
  match file_parts.head? with
  | none => none
  | some first =>
    if first = base_path.toList then some file_path
    else some (posixJoin base_path file_path)

/-- The first segment of a path: head of its split on `/`.  Used to state
the "already rooted" test the way the spec phrases it. -/
def firstSegment (s : String) : String :=
  String.mk ((splitSep '/' s.toList).headD [])

/-- Total wrapper of `prepend_base_path`; `prepend_base_path` never
returns `none` (proved below), so the default is never used. -/
def prependTotal (base_path file_path : String) : String :=
  (prepend_base_path base_path file_path).getD ""

/-- The index of the last occurrence of `sep` as a contiguous sublist of
`l`, the way Python's `str.rsplit(sep, 1)` locates its split point. -/
def lastOccurrence (sep l : List Char) : Option Nat :=
  (((List.range (l.length + 1)).filter (fun i => sep.isPrefixOf (l.drop i)))).getLast?

/-- Embeds `pdf_file_name.rsplit(".pdf", 1)[0]` from `main` in `tool.py`:
everything before the last occurrence of `".pdf"` anywhere in the name,
or the whole name when `".pdf"` does not occur. -/
def pdf_base_name (s : String) : String :=
  match lastOccurrence ".pdf".toList s.toList with
  | none => s
  | some i => String.mk (s.toList.take i)

/-- Whether `".pdf"` occurs anywhere in `s` (spec-side helper used to
state the amended suffix-stripping behavior). -/
def containsPdf (s : String) : Bool :=
  (List.range (s.toList.length + 1)).any (fun i => ".pdf".toList.isPrefixOf (s.toList.drop i))

/-! ## The rasterizer (`convert_pdf_to_images`)

`fitz` and `PIL` are external libraries; a document is abstracted as its
list of pages, and a page as a function from the rendering matrix to the
pixmap it produces. -/

/-- A `fitz.Matrix(zoom_x, zoom_y)` scaling matrix: its two diagonal
entries. -/
structure Mat where
  a : ℚ
  b : ℚ
deriving DecidableEq, Repr

/-- A `fitz` pixmap: width, height and raw RGB sample bytes. -/
structure Pixmap where
  width : Nat
  height : Nat
  samples : List Nat
deriving DecidableEq, Repr

/-- An abstract PDF page: what `page.get_pixmap(matrix=mat)` returns for
each rendering matrix. -/
structure Page where
  render : Mat → Pixmap

/-- An opened PDF document: its pages, in page order. -/
structure PdfDoc where
  pages : List Page

/-- A `PIL.Image` as built by `Image.frombytes(mode, size, data)`. -/
structure PILImage where
  mode : String
  size : List Nat
  data : List Nat
deriving DecidableEq, Repr

/-- Embeds `PIL.Image.frombytes`. -/
def PILImage.frombytes (mode : String) (size : List Nat) (data : List Nat) : PILImage :=
  ⟨mode, size, data⟩

/-- Embeds `convert_pdf_to_images` from `tool.py`: loop over
`range(len(doc))`, load each page, render it with the matrix
`fitz.Matrix(zoom, zoom)` where `zoom = dpi / 72`, wrap the raw samples
with `Image.frombytes`, and append.  `doc.load_page(page_num)` is
modelled with `List.get?`; the `none` branch is unreachable since the
loop only visits in-range indices. -/
def convert_pdf_to_images (doc : PdfDoc) (dpi : ℚ := 300) : List PILImage :=
  (List.range doc.pages.length).foldl
    (fun images page_num =>
      match doc.pages.get? page_num with
      | none => images
      | some page =>
        let zoom := dpi / 72
        let mat : Mat := ⟨zoom, zoom⟩
        let pix := page.render mat
        let img := PILImage.frombytes "RGB" [pix.width, pix.height] pix.samples
        images ++ [img])
    []

/-! ## The workspace adapter and the orchestrator (`main`)

The gptscript workspace client, the local filesystem, `os.getenv`, the
PDF parser and the PNG encoder are the run's external collaborators,
collected in `RunEnv`.  Workspace writes are recorded in order; Python
exceptions surface as `Except.error`. -/

/-- UTF-8 encoding of one Unicode code point, as Python's
`str.encode("utf-8")` produces it (byte values as `Nat < 256`). -/
def utf8EncodeChar (c : Char) : List Nat :=
  let n := c.toNat
  if n < 128 then [n]
  else if n < 2048 then [192 + n / 64, 128 + n % 64]
  else if n < 65536 then [224 + n / 4096, 128 + (n / 64) % 64, 128 + n % 64]
  else [240 + n / 262144, 128 + (n / 4096) % 64, 128 + (n / 64) % 64, 128 + n % 64]

/-- UTF-8 encoding of a string: Python `content.encode("utf-8")`. -/
def utf8Encode (s : String) : List Nat :=
  s.toList.flatMap utf8EncodeChar

/-- The `bytes | str` content union accepted by
`save_to_gptscript_workspace`. -/
inductive PyContent where
  | str (s : String)
  | bytes (b : List Nat)

/-- Embeds `save_to_gptscript_workspace` from `tool.py`: compute the
workspace path with `prepend_base_path("files", filepath)`, encode string
content as UTF-8, and return the write operation (path, bytes) issued to
`write_file_in_workspace`. -/
def save_to_gptscript_workspace (filepath : String) (content : PyContent) :
    Option (String × List Nat) :=
  match prepend_base_path "files" filepath with
  | none => none
  | some wksp_file_path =>
    let data := match content with
      | .str s => utf8Encode s
      | .bytes b => b
    some (wksp_file_path, data)

/-- The run's external collaborators: `os.getenv`, the workspace store's
read operation (`none` = path not found / store failure), `fitz.open` on
the staged bytes (`none` = invalid PDF), and PNG encoding
(`img.save(buf, format="PNG")`). -/
structure RunEnv where
  getenv : String → Option String
  wkspRead : String → Option (List Nat)
  openPdf : List Nat → Option PdfDoc
  pngEncode : PILImage → List Nat

/-- Observable outcome of one run of `main`: the returned value (the
`{"images": [...]}` mapping, or the propagated error), the workspace
writes in order, and the local scratch-file writes in order. -/
structure RunResult where
  outcome : Except String (List (String × List String))
  wkspWrites : List (String × List Nat)
  localWrites : List (String × List Nat)
deriving Repr

/-- Embeds `create_scratch_dir` from `tool.py`: `os.path.join` of the
`GPTSCRIPT_WORKSPACE_DIR` value with `"scratch"`.  A missing variable is
`None` in Python and `os.path.join(None, "scratch")` raises `TypeError`,
hence `none` here.  (`os.makedirs` is a local side effect with no
bearing on the claims and is not recorded.) -/
def create_scratch_dir (getenv : String → Option String) : Option String :=
  match getenv "GPTSCRIPT_WORKSPACE_DIR" with
  | none => none
  | some d => some (posixJoin d "scratch")

/-- Embeds `copy_pdf_from_gptscript_workspace` from `tool.py`: read the
file at `prepend_base_path("files", filepath)` from the workspace and
stage its bytes locally at `os.path.join(scratch_dir,
os.path.basename(filepath))`.  Returns the local path and the staged
bytes. -/
def copy_pdf_from_gptscript_workspace (wkspRead : String → Option (List Nat))
    (scratch_dir filepath : String) : Except String (String × List Nat) :=
  match prepend_base_path "files" filepath with
  | none => .error "IndexError"
  | some wksp_file_path =>
    match wkspRead wksp_file_path with
    | none => .error "workspace read failed"
    | some file_content =>
      let local_path := posixJoin scratch_dir (basename filepath)
      .ok (local_path, file_content)

/-- The `for i, img in enumerate(images)` loop of `main`, from index `i`:
build `f"{base_name}_page_{i}.png"`, PNG-encode the image, and write the
bytes at the path `save_to_gptscript_workspace` computes.  Returns the
generated file names and the workspace writes, both in page order. -/
def pageLoop (pngEncode : PILImage → List Nat) (base_name : String) :
    Nat → List PILImage → Option (List String × List (String × List Nat))
  | _, [] => some ([], [])
  | i, img :: rest =>
    let file_name := base_name ++ "_page_" ++ toString i ++ ".png"
    let png_bytes := pngEncode img
    match save_to_gptscript_workspace file_name (.bytes png_bytes) with
    | none => none
    | some write =>
      match pageLoop pngEncode base_name (i + 1) rest with
      | none => none
      | some (gen, writes) => some (file_name :: gen, write :: writes)

/-- Embeds `main` from `tool.py`, step by step in source order: scratch
dir from the environment, `PDF_FILE` from the environment, `.pdf`
stripping via `pdf_base_name`, staging via
`copy_pdf_from_gptscript_workspace`, rasterization via
`convert_pdf_to_images` (default dpi), then the page loop, returning
`{"images": generated_files}`. -/
def runMain (io : RunEnv) : RunResult :=
  match create_scratch_dir io.getenv with
  | none => ⟨.error "TypeError: GPTSCRIPT_WORKSPACE_DIR is not set", [], []⟩
  | some scratch_dir =>
    match io.getenv "PDF_FILE" with
    | none => ⟨.error "AttributeError: PDF_FILE is not set", [], []⟩
    | some pdf_file_name =>
      let base_name := pdf_base_name pdf_file_name
      match copy_pdf_from_gptscript_workspace io.wkspRead scratch_dir pdf_file_name with
      | .error e => ⟨.error e, [], []⟩
      | .ok (local_pdf_file_path, file_content) =>
        match io.openPdf file_content with
        | none => ⟨.error "invalid PDF", [], [(local_pdf_file_path, file_content)]⟩
        | some doc =>
          let images := convert_pdf_to_images doc
          match pageLoop io.pngEncode base_name 0 images with
          | none => ⟨.error "IndexError", [], [(local_pdf_file_path, file_content)]⟩
          | some (generated_files, writes) =>
            ⟨.ok [("images", generated_files)], writes,
              [(local_pdf_file_path, file_content)]⟩

/-! ## Basic lemmas about the path model -/

theorem splitSep_ne_nil (sep : Char) (l : List Char) : splitSep sep l ≠ [] := by
  induction l with
  | nil => simp [splitSep]
  | cons c cs ih =>
    simp only [splitSep]
    split
    · simp
    · cases h : splitSep sep cs with
      | nil => exact absurd h ih
      | cons r rs => simp

theorem String.mk_eq_iff (l : List Char) (s : String) :
    String.mk l = s ↔ l = s.data := by
  cases s
  constructor
  · intro h
    cases h
    rfl
  · intro h
    cases h
    rfl

/-- `prepend_base_path` characterized: it always succeeds, returning the
path unchanged exactly when the first segment of the normalized path
equals the base, and the `posixpath.join` of base and original path
otherwise. -/
theorem prepend_base_path_eq (B P : String) :
    prepend_base_path B P =
      some (if firstSegment (normpath P) = B then P else posixJoin B P) := by
  obtain ⟨r, rs, h⟩ :=
    List.exists_cons_of_ne_nil (splitSep_ne_nil '/' (normpath P).toList)
  simp only [prepend_base_path, firstSegment, h, List.head?, List.headD]
  by_cases hr : r = B.toList
  · have : String.mk r = B := (String.mk_eq_iff r B).mpr hr
    simp [hr, this]
  · have : ¬ String.mk r = B := fun he => hr ((String.mk_eq_iff r B).mp he)
    simp only [hr, if_false, this]

/-! ## Claims about `prepend_base_path` -/

/-- C1: `prepend_base_path(B, P)` returns `P` unchanged when the first
segment of the normalized form of `P` equals `B` exactly, and otherwise
returns `B` joined with the original (non-normalized) `P`; a deeper
occurrence of `B` in the path does not count as rooted:
`prepend_base_path "files" "bar/files/my-file.txt" =
"files/bar/files/my-file.txt"` and
`prepend_base_path "files" "files/bar/files/my-file.txt" =
"files/bar/files/my-file.txt"`. -/
theorem prepend_base_path_first_segment_spec :
    (∀ B P : String,
      prepend_base_path B P =
        some (if firstSegment (normpath P) = B then P else posixJoin B P))
    ∧ prepend_base_path "files" "bar/files/my-file.txt"
        = some "files/bar/files/my-file.txt"
    ∧ prepend_base_path "files" "files/bar/files/my-file.txt"
        = some "files/bar/files/my-file.txt" := by
  refine ⟨prepend_base_path_eq, by decide, by decide⟩

/-- C5: for every path `P` already rooted under base `B` (the first
segment of the normalized `P` equals `B`), applying
`prepend_base_path B` twice returns the same result as applying it
once. -/
theorem prepend_base_path_idempotent_on_rooted (B P : String)
    (h : firstSegment (normpath P) = B) :
    (prepend_base_path B P).bind (prepend_base_path B) = prepend_base_path B P := by
  have h1 : prepend_base_path B P = some P := by
    rw [prepend_base_path_eq, if_pos h]
  rw [h1]
  exact h1

/-- Witness for C5 at base `"files"` and path `"files/my-file.txt"`. -/
theorem prepend_base_path_idempotent_on_rooted_witness :
    (prepend_base_path "files" "files/my-file.txt").bind (prepend_base_path "files")
      = prepend_base_path "files" "files/my-file.txt" :=
  prepend_base_path_idempotent_on_rooted "files" "files/my-file.txt" (by decide)

/-- C6: `prepend_base_path` is total over all string inputs: the
first-segment access is always in bounds, so it always returns a string
(never `none`). -/
theorem prepend_base_path_total (B P : String) :
    (prepend_base_path B P).isSome = true := by
  rw [prepend_base_path_eq]
  rfl

/-! ## Claims about the `.pdf` suffix handling -/

theorem lastOccurrence_append_pdf (l : List Char) :
    lastOccurrence ".pdf".toList (l ++ ".pdf".toList) = some l.length := by
  have ht : (".pdf".toList).length = 4 := rfl
  unfold lastOccurrence
  have hlen : (l ++ ".pdf".toList).length = l.length + 4 := by
    simp [List.length_append, ht]
  rw [hlen]
  have hidx : l.length + 4 + 1 = (l.length + 1) + 4 := by omega
  rw [hidx, List.range_add, List.filter_append]
  have h2 : (((List.range 4).map (fun x => l.length + 1 + x)).filter
      (fun i => ".pdf".toList.isPrefixOf ((l ++ ".pdf".toList).drop i))) = [] := by
    refine List.filter_eq_nil_iff.mpr ?_
    intro a ha hP
    simp only [List.mem_map, List.mem_range] at ha
    obtain ⟨x, hx, rfl⟩ := ha
    have hpre := (List.isPrefixOf_iff_prefix.mp hP).length_le
    rw [List.length_drop, hlen, ht] at hpre
    omega
  rw [h2, List.append_nil, List.range_succ, List.filter_append]
  have hPlen : (".pdf".toList.isPrefixOf ((l ++ ".pdf".toList).drop l.length)) = true := by
    rw [List.drop_left]
    exact List.isPrefixOf_iff_prefix.mpr (List.prefix_refl _)
  simp only [List.filter_cons, List.filter_nil, hPlen, if_true]
  exact List.getLast?_concat _

theorem pdf_base_name_no_occurrence (s : String) (h : containsPdf s = false) :
    pdf_base_name s = s := by
  unfold containsPdf at h
  have hfilter : ((List.range (s.toList.length + 1)).filter
      (fun i => ".pdf".toList.isPrefixOf (s.toList.drop i))) = [] :=
    List.filter_eq_nil_iff.mpr (fun a ha => List.any_eq_false.mp h a ha)
  unfold pdf_base_name lastOccurrence
  rw [hfilter]
  rfl

theorem pdf_base_name_append (s : String) :
    pdf_base_name (s ++ ".pdf") = s := by
  unfold pdf_base_name
  have hdata : (s ++ ".pdf").toList = s.toList ++ ".pdf".toList :=
    String.data_append s ".pdf"
  rw [hdata, lastOccurrence_append_pdf]
  show String.mk ((s.toList ++ ".pdf".toList).take s.toList.length) = s
  rw [List.take_left]
  exact (String.mk_eq_iff _ _).mpr rfl

/-- C2 counterexample: the claim says a name with `.pdf` only in the
middle strips nothing, so `base_name "a.pdf.backup"` would be
`"a.pdf.backup"`; the code's `rsplit(".pdf", 1)[0]` instead yields
`"a"`. -/
theorem pdf_base_name_backup_counterexample :
    pdf_base_name "a.pdf.backup" = "a" ∧ pdf_base_name "a.pdf.backup" ≠ "a.pdf.backup" := by
  constructor
  · decide
  · decide

/-- C2 (amended): `base_name` is everything before the last occurrence
of `".pdf"` anywhere in the file name (not only a trailing suffix); the
name is returned whole exactly when `".pdf"` does not occur in it at
all.  So `"a.pdf"` yields `"a"` — and `"a.pdf.backup"` also yields
`"a"`, not `"a.pdf.backup"`. -/
theorem pdf_base_name_rsplit_spec :
    (∀ s : String, pdf_base_name (s ++ ".pdf") = s)
    ∧ (∀ s : String, containsPdf s = false → pdf_base_name s = s)
    ∧ pdf_base_name "a.pdf" = "a"
    ∧ pdf_base_name "a.pdf.backup" = "a" := by
  refine ⟨pdf_base_name_append, pdf_base_name_no_occurrence, by decide, by decide⟩

/-- Witness for the amended C2 at the concrete name `"notes"`, which
does not contain `".pdf"`. -/
theorem pdf_base_name_rsplit_spec_witness :
    pdf_base_name "notes" = "notes" :=
  pdf_base_name_rsplit_spec.2.1 "notes" (by decide)

/-! ## Claims about the rasterizer loop -/

theorem convert_aux (l : List Page) (g : Page → PILImage) :
    ∀ (k : Nat), k ≤ l.length →
      (List.range k).foldl
        (fun images page_num =>
          match l.get? page_num with
          | none => images
          | some page => images ++ [g page]) []
        = (l.take k).map g := by
  intro k
  induction k with
  | zero => intro _; rfl
  | succ n ih =>
    intro hk
    rw [List.range_succ, List.foldl_append, ih (Nat.le_of_succ_le hk)]
    have hn : n < l.length := hk
    have hpage : l.get? n = some (l.get ⟨n, hn⟩) := List.get?_eq_get hn
    simp only [List.foldl_cons, List.foldl_nil, hpage]
    rw [List.take_succ]
    simp only [← List.get?_eq_getElem?, hpage, Option.toList_some, List.map_append,
      List.map_cons, List.map_nil]

/-- The rasterizer loop characterized: one image per page, in page
order, each rendered with the uniform matrix `⟨dpi / 72, dpi / 72⟩`. -/
theorem convert_pdf_to_images_eq_map (doc : PdfDoc) (dpi : ℚ) :
    convert_pdf_to_images doc dpi =
      doc.pages.map (fun page =>
        let pix := page.render ⟨dpi / 72, dpi / 72⟩
        PILImage.frombytes "RGB" [pix.width, pix.height] pix.samples) := by
  have h := convert_aux doc.pages
    (fun page =>
      let pix := page.render ⟨dpi / 72, dpi / 72⟩
      PILImage.frombytes "RGB" [pix.width, pix.height] pix.samples)
    doc.pages.length le_rfl
  rw [List.take_length] at h
  exact h

/-- C8: each rasterization call uses the scale factor `dpi / 72` (with
default dpi 300) applied to both axes of the rendering matrix, and
produces one bitmap per page, in page order. -/
theorem convert_pdf_to_images_scale_spec :
    (∀ (doc : PdfDoc) (dpi : ℚ),
      convert_pdf_to_images doc dpi =
        doc.pages.map (fun page =>
          let pix := page.render ⟨dpi / 72, dpi / 72⟩
          PILImage.frombytes "RGB" [pix.width, pix.height] pix.samples))
    ∧ (∀ doc : PdfDoc, convert_pdf_to_images doc = convert_pdf_to_images doc 300)
    ∧ (∀ (doc : PdfDoc) (dpi : ℚ),
        (convert_pdf_to_images doc dpi).length = doc.pages.length) := by
  refine ⟨convert_pdf_to_images_eq_map, fun _ => rfl, fun doc dpi => ?_⟩
  rw [convert_pdf_to_images_eq_map, List.length_map]

/-! ## Characterizing the page loop and the whole run -/

theorem save_bytes_eq (fp : String) (bts : List Nat) :
    save_to_gptscript_workspace fp (.bytes bts) = some (prependTotal "files" fp, bts) := by
  unfold save_to_gptscript_workspace prependTotal
  rw [prepend_base_path_eq]
  rfl

theorem save_str_eq (fp s : String) :
    save_to_gptscript_workspace fp (.str s) = some (prependTotal "files" fp, utf8Encode s) := by
  unfold save_to_gptscript_workspace prependTotal
  rw [prepend_base_path_eq]
  rfl

/-- The page loop never fails and produces, in page order, the file name
`{base}_page_{i}.png` and the workspace write at its prepended path. -/
theorem pageLoop_eq (enc : PILImage → List Nat) (b : String) :
    ∀ (i : Nat) (imgs : List PILImage),
      pageLoop enc b i imgs =
        some ((List.enumFrom i imgs).map
                (fun p => b ++ "_page_" ++ toString p.1 ++ ".png"),
              (List.enumFrom i imgs).map
                (fun p =>
                  (prependTotal "files" (b ++ "_page_" ++ toString p.1 ++ ".png"),
                   enc p.2))) := by
  intro i imgs
  induction imgs generalizing i with
  | nil => rfl
  | cons img rest ih =>
    simp only [pageLoop, save_bytes_eq, ih (i + 1), List.enumFrom, List.map_cons]

/-- A successful run, fully characterized: with both environment
variables present, a readable workspace file and a parseable PDF, the
run returns the generated names in page order, performs the matching
workspace writes, and stages the input once locally under the scratch
directory by its base name. -/
theorem runMain_ok (io : RunEnv) (d name wp : String) (content : List Nat) (doc : PdfDoc)
    (hd : io.getenv "GPTSCRIPT_WORKSPACE_DIR" = some d)
    (hn : io.getenv "PDF_FILE" = some name)
    (hw : prepend_base_path "files" name = some wp)
    (hr : io.wkspRead wp = some content)
    (ho : io.openPdf content = some doc) :
    runMain io =
      ⟨.ok [("images",
          (List.enumFrom 0 (convert_pdf_to_images doc)).map
            (fun p => pdf_base_name name ++ "_page_" ++ toString p.1 ++ ".png"))],
        (List.enumFrom 0 (convert_pdf_to_images doc)).map
          (fun p =>
            (prependTotal "files"
                (pdf_base_name name ++ "_page_" ++ toString p.1 ++ ".png"),
             io.pngEncode p.2)),
        [(posixJoin (posixJoin d "scratch") (basename name), content)]⟩ := by
  simp only [runMain, create_scratch_dir, copy_pdf_from_gptscript_workspace,
    hd, hn, hw, hr, ho, pageLoop_eq]

theorem enumFrom_map_fst {α β : Type} (l : List α) (f : Nat → β) :
    (List.enumFrom 0 l).map (fun p => f p.1) = (List.range l.length).map f := by
  have h : (fun p : Nat × α => f p.1) = f ∘ Prod.fst := rfl
  rw [h, ← List.map_map]
  show (l.enum.map Prod.fst).map f = _
  rw [List.enum_map_fst]

theorem convert_length (doc : PdfDoc) (dpi : ℚ) :
    (convert_pdf_to_images doc dpi).length = doc.pages.length := by
  rw [convert_pdf_to_images_eq_map, List.length_map]

theorem enumFrom_map_name (l : List PILImage) (b : String) :
    (List.enumFrom 0 l).map (fun p => b ++ "_page_" ++ toString p.1 ++ ".png")
      = (List.range l.length).map (fun i => b ++ "_page_" ++ toString i ++ ".png") :=
  enumFrom_map_fst l (fun i => b ++ "_page_" ++ toString i ++ ".png")

/-! ## Concrete runs used as witnesses and counterexamples -/

/-- A page whose pixmap is a 1×1 bitmap with the three sample bytes
`[k, k, k]`, regardless of the rendering matrix. -/
def pageConst (k : Nat) : Page := ⟨fun _ => ⟨1, 1, [k, k, k]⟩⟩

/-- A three-page document. -/
def doc3 : PdfDoc := ⟨[pageConst 0, pageConst 1, pageConst 2]⟩

/-- A zero-page document. -/
def doc0 : PdfDoc := ⟨[]⟩

/-- Stand-in bytes for a stored PDF file. -/
def pdfBytes : List Nat := [37, 80, 68, 70]

/-- A run environment holding `report.pdf` (three pages) in the
workspace, with the PNG encoder returning the raw image data. -/
def io3 : RunEnv where
  getenv := fun v =>
    if v = "GPTSCRIPT_WORKSPACE_DIR" then some "/w"
    else if v = "PDF_FILE" then some "report.pdf" else none
  wkspRead := fun p => if p = "files/report.pdf" then some pdfBytes else none
  openPdf := fun b => if b = pdfBytes then some doc3 else none
  pngEncode := fun img => img.data

/-- A run environment holding a zero-page `empty.pdf`. -/
def io0 : RunEnv where
  getenv := fun v =>
    if v = "GPTSCRIPT_WORKSPACE_DIR" then some "/w"
    else if v = "PDF_FILE" then some "empty.pdf" else none
  wkspRead := fun p => if p = "files/empty.pdf" then some pdfBytes else none
  openPdf := fun b => if b = pdfBytes then some doc0 else none
  pngEncode := fun img => img.data

/-- A run environment where both required variables are present but
EMPTY, and the store happens to hold a zero-page document at the path
`"files/"` the tool then asks for. -/
def io7 : RunEnv where
  getenv := fun v =>
    if v = "GPTSCRIPT_WORKSPACE_DIR" then some ""
    else if v = "PDF_FILE" then some "" else none
  wkspRead := fun p => if p = "files/" then some [] else none
  openPdf := fun b => if b = ([] : List Nat) then some doc0 else none
  pngEncode := fun img => img.data

/-- A run environment with no environment variables set at all. -/
def ioNone : RunEnv where
  getenv := fun _ => none
  wkspRead := fun _ => none
  openPdf := fun _ => none
  pngEncode := fun img => img.data

/-! ## Claims about the orchestrated run -/

/-- C3: a run that succeeds with the input named `name` and `n` rendered
pages returns the mapping `images ↦ [base_name ++ "_page_0.png", ...,
base_name ++ "_page_" ++ (n-1) ++ ".png"]`, zero-based and in page
order. -/
theorem runMain_images_spec (io : RunEnv) (d name wp : String) (content : List Nat)
    (doc : PdfDoc)
    (hd : io.getenv "GPTSCRIPT_WORKSPACE_DIR" = some d)
    (hn : io.getenv "PDF_FILE" = some name)
    (hw : prepend_base_path "files" name = some wp)
    (hr : io.wkspRead wp = some content)
    (ho : io.openPdf content = some doc) :
    (runMain io).outcome =
      .ok [("images",
        (List.range doc.pages.length).map
          (fun i => pdf_base_name name ++ "_page_" ++ toString i ++ ".png"))] := by
  rw [runMain_ok io d name wp content doc hd hn hw hr ho]
  show Except.ok _ = _
  rw [enumFrom_map_name, convert_length]

/-- Witness for C3: the run `io3` on `"report.pdf"` with three pages
returns exactly `["report_page_0.png", "report_page_1.png",
"report_page_2.png"]`. -/
theorem runMain_images_spec_witness :
    (runMain io3).outcome =
      .ok [("images",
        (List.range doc3.pages.length).map
          (fun i => pdf_base_name "report.pdf" ++ "_page_" ++ toString i ++ ".png"))]
    ∧ (List.range doc3.pages.length).map
          (fun i => pdf_base_name "report.pdf" ++ "_page_" ++ toString i ++ ".png")
        = ["report_page_0.png", "report_page_1.png", "report_page_2.png"] :=
  ⟨runMain_images_spec io3 "/w" "report.pdf" "files/report.pdf" pdfBytes doc3
      rfl rfl (by decide) rfl rfl,
    by decide⟩

/-- C4: a zero-page PDF input is not an error: the run succeeds with an
empty list under the key `images`, performs no workspace write, and its
only local write is the staged input copy. -/
theorem runMain_zero_pages_spec (io : RunEnv) (d name wp : String) (content : List Nat)
    (doc : PdfDoc)
    (hd : io.getenv "GPTSCRIPT_WORKSPACE_DIR" = some d)
    (hn : io.getenv "PDF_FILE" = some name)
    (hw : prepend_base_path "files" name = some wp)
    (hr : io.wkspRead wp = some content)
    (ho : io.openPdf content = some doc)
    (hz : doc.pages = []) :
    convert_pdf_to_images doc = []
    ∧ runMain io =
      ⟨.ok [("images", [])], [],
        [(posixJoin (posixJoin d "scratch") (basename name), content)]⟩ := by
  have hconv : convert_pdf_to_images doc = [] := by
    show convert_pdf_to_images doc 300 = []
    rw [convert_pdf_to_images_eq_map, hz]
    rfl
  refine ⟨hconv, ?_⟩
  rw [runMain_ok io d name wp content doc hd hn hw hr ho, hconv]
  rfl

/-- Witness for C4: the zero-page run `io0` succeeds with no images and
no workspace writes. -/
theorem runMain_zero_pages_spec_witness :
    convert_pdf_to_images doc0 = []
    ∧ runMain io0 =
      ⟨.ok [("images", [])], [],
        [(posixJoin (posixJoin "/w" "scratch") (basename "empty.pdf"), pdfBytes)]⟩ :=
  runMain_zero_pages_spec io0 "/w" "empty.pdf" "files/empty.pdf" pdfBytes doc0
    rfl rfl (by decide) rfl rfl rfl

/-- C7 counterexample: the claim also covers EMPTY environment
variables, but with both variables set to the empty string the code does
not abort: against a store holding a zero-page document at `"files/"`,
the run completes successfully. -/
theorem runMain_empty_env_counterexample :
    io7.getenv "GPTSCRIPT_WORKSPACE_DIR" = some ""
    ∧ io7.getenv "PDF_FILE" = some ""
    ∧ (runMain io7).outcome = .ok [("images", [])] := by
  refine ⟨rfl, rfl, ?_⟩
  rw [runMain_ok io7 "" "" "files/" [] doc0 rfl rfl (by decide) rfl rfl]
  rfl

/-- C7 (amended): a MISSING required environment variable (the
workspace-root variable, or the input-file-name variable) aborts the run
with an error before any workspace write and before any local write; an
empty-string value is not detected and does not by itself abort. -/
theorem runMain_missing_env_spec (io : RunEnv)
    (h : io.getenv "GPTSCRIPT_WORKSPACE_DIR" = none ∨ io.getenv "PDF_FILE" = none) :
    (∃ e, (runMain io).outcome = Except.error e)
    ∧ (runMain io).wkspWrites = [] ∧ (runMain io).localWrites = [] := by
  rcases h with h | h
  · simp only [runMain, create_scratch_dir, h]
    exact ⟨⟨_, rfl⟩, by trivial, by trivial⟩
  · cases hg : io.getenv "GPTSCRIPT_WORKSPACE_DIR" with
    | none =>
      simp only [runMain, create_scratch_dir, hg]
      exact ⟨⟨_, rfl⟩, by trivial, by trivial⟩
    | some d =>
      simp only [runMain, create_scratch_dir, hg, h]
      exact ⟨⟨_, rfl⟩, by trivial, by trivial⟩

/-- Witness for the amended C7: with no environment variables at all the
run errors out with no writes. -/
theorem runMain_missing_env_spec_witness :
    (∃ e, (runMain ioNone).outcome = Except.error e)
    ∧ (runMain ioNone).wkspWrites = [] ∧ (runMain ioNone).localWrites = [] :=
  runMain_missing_env_spec ioNone (Or.inl rfl)

/-- C9: string content handed to `save_to_gptscript_workspace` is
written as exactly its UTF-8 encoding; bytes content is written
unchanged.  The concrete conjuncts pin `utf8Encode` to real UTF-8 on
1-, 2-, 3- and 4-byte code points. -/
theorem save_to_gptscript_workspace_utf8_spec :
    (∀ fp s : String,
      save_to_gptscript_workspace fp (.str s) = some (prependTotal "files" fp, utf8Encode s))
    ∧ (∀ (fp : String) (b : List Nat),
      save_to_gptscript_workspace fp (.bytes b) = some (prependTotal "files" fp, b))
    ∧ utf8Encode "A" = [65]
    ∧ utf8Encode "é" = [195, 169]
    ∧ utf8Encode "€" = [226, 130, 172]
    ∧ utf8Encode "𝄞" = [240, 157, 132, 158] := by
  refine ⟨save_str_eq, save_bytes_eq, by decide, by decide, by decide, by decide⟩

/-! ## Claims about directory components in the input name -/

theorem splitSep_append (sep : Char) (xs ys : List Char) :
    splitSep sep (xs ++ sep :: ys) = splitSep sep xs ++ splitSep sep ys := by
  induction xs with
  | nil => simp [splitSep]
  | cons c cs ih =>
    by_cases hc : c = sep
    · subst hc
      show splitSep c (c :: (cs ++ c :: ys)) = splitSep c (c :: cs) ++ splitSep c ys
      simp [splitSep, ih]
    · show splitSep sep (c :: (cs ++ sep :: ys)) = splitSep sep (c :: cs) ++ splitSep sep ys
      cases h : splitSep sep cs with
      | nil => exact absurd h (splitSep_ne_nil sep cs)
      | cons r rs =>
        simp only [splitSep, hc, if_false, ih, h, List.cons_append]

theorem splitSep_not_mem (sep : Char) (l : List Char) (h : sep ∉ l) :
    splitSep sep l = [l] := by
  induction l with
  | nil => rfl
  | cons c cs ih =>
    have hc : ¬ c = sep := fun he => h (he ▸ List.mem_cons_self c cs)
    have hcs : sep ∉ cs := fun hm => h (List.mem_cons_of_mem c hm)
    simp only [splitSep, hc, if_false, ih hcs]

/-- `os.path.basename` keeps only the part after the last slash. -/
theorem basename_append_no_slash (d f : String) (h : '/' ∉ f.toList) :
    basename (d ++ "/" ++ f) = f := by
  unfold basename
  have hl : (d ++ "/" ++ f).toList = d.toList ++ '/' :: f.toList := by
    show ((d ++ "/") ++ f).data = d.data ++ '/' :: f.data
    rw [String.data_append, String.data_append, List.append_assoc]
    rfl
  rw [hl, splitSep_append, splitSep_not_mem '/' f.toList h, List.getLastD_concat]
  exact (String.mk_eq_iff _ _).mpr rfl

/-- A one-page document whose single page renders to a 1×1 bitmap with
sample bytes `[7, 7, 7]`. -/
def doc1 : PdfDoc := ⟨[pageConst 7]⟩

/-- A run environment whose input file name `"foo/report.pdf"` carries a
directory component. -/
def io10 : RunEnv where
  getenv := fun v =>
    if v = "GPTSCRIPT_WORKSPACE_DIR" then some "/w"
    else if v = "PDF_FILE" then some "foo/report.pdf" else none
  wkspRead := fun p => if p = "files/foo/report.pdf" then some pdfBytes else none
  openPdf := fun b => if b = pdfBytes then some doc1 else none
  pngEncode := fun img => img.data

/-- C10: an input name with directory separators is staged locally under
its final path component only (`basename` drops the directories), while
every generated output name keeps the directory prefix and every
workspace write goes to the prepended path: the run `io10` on
`"foo/report.pdf"` stages `"/w/scratch/report.pdf"`, returns
`["foo/report_page_0.png"]`, and writes
`"files/foo/report_page_0.png"`. -/
theorem runMain_directory_prefix_spec :
    (∀ d f : String, '/' ∉ f.toList → basename (d ++ "/" ++ f) = f)
    ∧ (∀ (io : RunEnv) (d name wp : String) (content : List Nat) (doc : PdfDoc),
        io.getenv "GPTSCRIPT_WORKSPACE_DIR" = some d →
        io.getenv "PDF_FILE" = some name →
        prepend_base_path "files" name = some wp →
        io.wkspRead wp = some content →
        io.openPdf content = some doc →
        (runMain io).localWrites
          = [(posixJoin (posixJoin d "scratch") (basename name), content)])
    ∧ runMain io10 =
        ⟨.ok [("images", ["foo/report_page_0.png"])],
          [("files/foo/report_page_0.png", [7, 7, 7])],
          [("/w/scratch/report.pdf", pdfBytes)]⟩ := by
  refine ⟨basename_append_no_slash, ?_, ?_⟩
  · intro io d name wp content doc hd hn hw hr ho
    rw [runMain_ok io d name wp content doc hd hn hw hr ho]
  · rw [runMain_ok io10 "/w" "foo/report.pdf" "files/foo/report.pdf" pdfBytes doc1
      rfl rfl (by decide) rfl rfl]
    rfl

/-- Witness for C10 at the concrete input `"foo/report.pdf"`. -/
theorem runMain_directory_prefix_spec_witness :
    basename ("foo" ++ "/" ++ "report.pdf") = "report.pdf"
    ∧ (runMain io10).localWrites
        = [(posixJoin (posixJoin "/w" "scratch") (basename "foo/report.pdf"), pdfBytes)] :=
  ⟨runMain_directory_prefix_spec.1 "foo" "report.pdf" (by decide),
    runMain_directory_prefix_spec.2.1 io10 "/w" "foo/report.pdf" "files/foo/report.pdf"
      pdfBytes doc1 rfl rfl (by decide) rfl rfl⟩

end Pdf2Png
